import Mathlib

/-
Verification of the PathPlanner trajectory core
(`pathplannerlib .../lib/trajectory/PathPlannerTrajectory.h`).

The trajectory container, its accessors and the kinematic accessor
`toChassisSpeeds` are embedded directly from the header.  Members that are
only declared in the header (the `sample` body, `desaturateWheelSpeeds`,
`GeometryUtil::rotationLerp`, and the generating constructor together with
`generateStates` / `forwardAccelPass` / `reverseAccelPass`) are modelled
from the specification; each such definition carries a doc comment saying
so.

Numeric fields are embedded over an arbitrary linear ordered field so that
concrete trajectories can be evaluated over `ℚ` while the generation
pipeline, which needs square roots and cosines, is instantiated at `ℝ`.
C++ vector indexing without a bounds check is embedded as an
`Option`-valued lookup: the `none` branch is exactly the out-of-bounds
branch of the source.
-/

namespace PPLib

/-- One swerve module's commanded state: `SwerveModuleTrajectoryState`
(speed, angle).  The angle is kept as an unwrapped scalar representative. -/
structure SwerveModuleTrajectoryState (α : Type) where
  speed : α
  angle : α
  deriving DecidableEq, Repr

/-- Robot-relative chassis speeds `(vx, vy, ω)` (`frc::ChassisSpeeds`). -/
structure ChassisSpeeds (α : Type) where
  vx : α
  vy : α
  omega : α
  deriving DecidableEq, Repr

/-- Modelled from the spec: `PathPlannerTrajectoryState.h` is not among the
provided sources; the fields follow §3 of the specification (time, pose,
linear velocity/acceleration, chassis speeds, curvature, per-module states,
effective constraints) plus the arc-length delta `deltaPos` consumed by the
acceleration passes.  The pose heading is an unwrapped angle
representative. -/
structure PathPlannerTrajectoryState (α : Type) where
  time : α
  x : α
  y : α
  heading : α
  linearVelocity : α
  linearAcceleration : α
  speeds : ChassisSpeeds α
  curvature : α
  deltaPos : α
  moduleStates : List (SwerveModuleTrajectoryState α)
  maxVelocity : α
  maxAcceleration : α
  deriving DecidableEq, Repr

/-- The trajectory container: an ordered state sequence plus the ordered
`(timestamp, opaque command handle)` pairs.  The handle type `κ` is a type
parameter, so the embedding can never inspect or invoke a handle. -/
structure PathPlannerTrajectory (α : Type) (κ : Type) where
  states : List (PathPlannerTrajectoryState α)
  eventCommands : List (α × κ)
  deriving DecidableEq, Repr

variable {α : Type} {κ : Type}

/-- Constructor `PathPlannerTrajectory(states, eventCommands)` (header
lines 39-43): both vectors are stored unmodified. -/
def mkTrajectory (states : List (PathPlannerTrajectoryState α))
    (eventCommands : List (α × κ)) : PathPlannerTrajectory α κ :=
  ⟨states, eventCommands⟩

/-- Constructor `PathPlannerTrajectory(states)` (header lines 50-52): the
event-command vector is default-constructed, hence empty. -/
def mkTrajectoryStates (states : List (PathPlannerTrajectoryState α)) :
    PathPlannerTrajectory α κ :=
  ⟨states, []⟩

/-- Default constructor `PathPlannerTrajectory()` (header lines 30-31):
both vectors are default-constructed, hence empty. -/
def mkTrajectoryDefault : PathPlannerTrajectory α κ :=
  ⟨[], []⟩

/-- `getEventCommands` (header lines 71-74): returns `m_eventCommands`. -/
def getEventCommands (traj : PathPlannerTrajectory α κ) : List (α × κ) :=
  traj.eventCommands

/-- `getStates` (header lines 81-83): returns `m_states`. -/
def getStates (traj : PathPlannerTrajectory α κ) :
    List (PathPlannerTrajectoryState α) :=
  traj.states

/-- `getState(index)` (header lines 91-93): `m_states[index]`, an unchecked
vector access embedded as an optional lookup. -/
def getState (traj : PathPlannerTrajectory α κ) (index : ℕ) :
    Option (PathPlannerTrajectoryState α) :=
  traj.states[index]?

/-- `getInitialState` (header lines 100-102): `m_states[0]`, unchecked; on
an empty state vector the access is out of bounds (`none`). -/
def getInitialState (traj : PathPlannerTrajectory α κ) :
    Option (PathPlannerTrajectoryState α) :=
  match traj.states with
  | [] => none
  | s :: _ => some s

/-- `getEndState` (header lines 109-111): `m_states[m_states.size() - 1]`,
unchecked; on an empty state vector `size() - 1` wraps around and the
access is out of bounds (`none`). -/
def getEndState (traj : PathPlannerTrajectory α κ) :
    Option (PathPlannerTrajectoryState α) :=
  match traj.states with
  | [] => none
  | s :: rest => some (rest.getLastD s)

/-- `getTotalTime` (header lines 118-120): `getEndState().time`. -/
def getTotalTime (traj : PathPlannerTrajectory α κ) : Option α :=
  (getEndState traj).map (fun s => s.time)

/-- `getInitialPose` (header lines 127-129): `getInitialState().pose`,
embedded as the `(x, y, heading)` triple. -/
def getInitialPose (traj : PathPlannerTrajectory α κ) : Option (α × α × α) :=
  (getInitialState traj).map (fun s => (s.x, s.y, s.heading))

section Sampling

variable [LinearOrderedField α]

/-- Linear interpolation `a + (b - a) * t`. -/
def lerp (a b t : α) : α :=
  a + (b - a) * t

/-- Modelled from the spec: state interpolation used by `sample` (§4.5):
every scalar field is linearly interpolated and module states are
interpolated component-wise.  Angles are unwrapped representatives, so the
shortest-arc interpolation of the spec coincides with linear interpolation
of the representative. -/
def interpolateState (s1 s2 : PathPlannerTrajectoryState α) (t : α) :
    PathPlannerTrajectoryState α where
  time := lerp s1.time s2.time t
  x := lerp s1.x s2.x t
  y := lerp s1.y s2.y t
  heading := lerp s1.heading s2.heading t
  linearVelocity := lerp s1.linearVelocity s2.linearVelocity t
  linearAcceleration := lerp s1.linearAcceleration s2.linearAcceleration t
  speeds := ⟨lerp s1.speeds.vx s2.speeds.vx t, lerp s1.speeds.vy s2.speeds.vy t,
    lerp s1.speeds.omega s2.speeds.omega t⟩
  curvature := lerp s1.curvature s2.curvature t
  deltaPos := lerp s1.deltaPos s2.deltaPos t
  moduleStates := List.zipWith
    (fun m1 m2 => ⟨lerp m1.speed m2.speed t, lerp m1.angle m2.angle t⟩)
    s1.moduleStates s2.moduleStates
  maxVelocity := lerp s1.maxVelocity s2.maxVelocity t
  maxAcceleration := lerp s1.maxAcceleration s2.maxAcceleration t

/-- Modelled from the spec: the in-range part of `sample` (§4.5).  Walk the
state sequence for the bracketing pair `s.time ≤ t ≤ s'.time`; a query that
hits a stored timestamp exactly returns that state verbatim, otherwise the
bracketing states are interpolated at the fractional position of `t`. -/
def sampleFrom (s : PathPlannerTrajectoryState α) :
    List (PathPlannerTrajectoryState α) → α → PathPlannerTrajectoryState α
  | [], _ => s
  | s' :: rest, t =>
    if t ≤ s.time then s
    else if t < s'.time then
      interpolateState s s' ((t - s.time) / (s'.time - s.time))
    else sampleFrom s' rest t

/-- Modelled from the spec: the body of `PathPlannerTrajectory::sample`
(declared at header line 137) is not among the provided sources.  Per §4.5
and §7 a query time is clamped to the trajectory's time range: `t < 0`
returns the initial state, `t` past `getTotalTime()` returns the end state,
and an in-range `t` is answered by the bracketing search.  An empty state
sequence has no valid sample (`none`). -/
def sample (traj : PathPlannerTrajectory α κ) (t : α) :
    Option (PathPlannerTrajectoryState α) :=
  match traj.states with
  | [] => none
  | s :: rest =>
    let endState := rest.getLastD s
    if t < 0 then some s
    else if endState.time < t then some endState
    else some (sampleFrom s rest t)

end Sampling

/-- The robot configuration consumed by the trajectory core, following §3
and §9 of the specification: a drivetrain kind flag, the physical limits,
and the kinematic conversion strategies for the two drivetrain kinds
(`config.swerveKinematics.ToChassisSpeeds` / `config.diffKinematics...` in
the header are external collaborators, represented as function fields). -/
structure RobotConfig (α : Type) where
  isHolonomic : Bool
  maxModuleSpeed : α
  maxVelocity : α
  maxAcceleration : α
  swerveToChassis : SwerveModuleTrajectoryState α → SwerveModuleTrajectoryState α →
    SwerveModuleTrajectoryState α → SwerveModuleTrajectoryState α → ChassisSpeeds α
  diffToChassis : SwerveModuleTrajectoryState α → SwerveModuleTrajectoryState α →
    ChassisSpeeds α

/-- `toChassisSpeeds` (header lines 185-203): when `config.isHolonomic` it
builds a 4-element `wpi::array` from `states[0] .. states[3]` and otherwise
a 2-element array from `states[0], states[1]`, in both cases with unchecked
vector indexing, then hands the array to the drivetrain's forward
kinematics.  The unchecked accesses are embedded as optional lookups. -/
def toChassisSpeeds (config : RobotConfig α)
    (states : List (SwerveModuleTrajectoryState α)) : Option (ChassisSpeeds α) :=
  if config.isHolonomic then
    match states[0]?, states[1]?, states[2]?, states[3]? with
    | some s0, some s1, some s2, some s3 =>
      some (config.swerveToChassis s0 s1 s2 s3)
    | _, _, _, _ => none
  else
    match states[0]?, states[1]? with
    | some s0, some s1 => some (config.diffToChassis s0 s1)
    | _, _ => none

section RotationInterp

/-- Modelled from the spec: `GeometryUtil::rotationLerp` is not among the
provided sources; per §4.1 it is the shortest-path interpolation between
two rotations, embedded on `Real.Angle` where `toReal` picks the
representative of the difference in `(-π, π]` (the shortest arc). -/
noncomputable def rotationLerp (a b : Real.Angle) (t : ℝ) : Real.Angle :=
  a + (((b - a).toReal * t : ℝ) : Real.Angle)

/-- `cosineInterpolate` (header lines 164-168): `t2 = (1 - cos(t·π)) / 2`,
then `rotationLerp(start, end, t2)`. -/
noncomputable def cosineInterpolate (start stop : Real.Angle) (t : ℝ) : Real.Angle :=
  let t2 := (1 - Real.cos (t * Real.pi)) / 2
  rotationLerp start stop t2

end RotationInterp

section Desaturation

/-- Required speed of the module mounted at offset `m = (mx, my)` from the
robot centre under chassis speeds `cs`: the norm of the module's velocity
vector `(vx - ω·my, vy + ω·mx)` (standard inverse kinematics). -/
noncomputable def moduleSpeed (m : ℝ × ℝ) (cs : ChassisSpeeds ℝ) : ℝ :=
  Real.sqrt ((cs.vx - cs.omega * m.2) ^ 2 + (cs.vy + cs.omega * m.1) ^ 2)

/-- Largest required module speed over the module layout (0 for an empty
layout). -/
noncomputable def maxRequiredModuleSpeed (modules : List (ℝ × ℝ))
    (cs : ChassisSpeeds ℝ) : ℝ :=
  (modules.map (fun m => moduleSpeed m cs)).foldr max 0

/-- Uniform scaling of a chassis-speed command. -/
def scaleChassisSpeeds (k : ℝ) (cs : ChassisSpeeds ℝ) : ChassisSpeeds ℝ :=
  ⟨k * cs.vx, k * cs.vy, k * cs.omega⟩

/-- Modelled from the spec: the body of
`PathPlannerTrajectory::desaturateWheelSpeeds` (declared at header lines
154-159) is not among the provided sources.  Per §4.4, if any module's
required speed exceeds the configured maximum module speed, the whole
chassis command is scaled by the single factor `max / worst` so the worst
module sits exactly at its limit; the header's additional
`maxTranslationSpeed` / `maxRotationSpeed` parameters have no behaviour
given in the specification and are not modelled. -/
noncomputable def desaturateWheelSpeeds (modules : List (ℝ × ℝ))
    (maxModuleSpeed : ℝ) (cs : ChassisSpeeds ℝ) : ChassisSpeeds ℝ :=
  let realMax := maxRequiredModuleSpeed modules cs
  if maxModuleSpeed < realMax then
    scaleChassisSpeeds (maxModuleSpeed / realMax) cs
  else cs

end Desaturation

section Generation

/-- A point of the externally supplied path (§3, §6): arc-length position,
field pose, signed curvature, optional holonomic rotation target and the
locally active constraint zone. -/
structure PathPoint where
  distanceAlongPath : ℝ
  x : ℝ
  y : ℝ
  heading : ℝ
  curvature : ℝ
  rotationTarget : Option ℝ
  maxVelocity : ℝ
  maxAcceleration : ℝ

/-- Placeholder point used for the (never taken in well-formed inputs)
out-of-range branch of indexed path lookups. -/
def defaultPathPoint : PathPoint :=
  ⟨0, 0, 0, 0, 0, none, 0, 0⟩

/-- Construction-failure outcomes (§7 error taxonomy, malformed input). -/
inductive GenError where
  | emptyPath
  | nonMonotonicArcLength
  | invalidConfig
  deriving DecidableEq, Repr

/-- The path collaborator's guarantee (§6): ordered by increasing arc
length (non-strict, since coincident points are legal §4.3). -/
def arcLengthMonotone (points : List PathPoint) : Prop :=
  points.Chain' (fun p q => p.distanceAlongPath ≤ q.distanceAlongPath)

noncomputable instance :
    DecidableRel (fun p q : PathPoint => p.distanceAlongPath ≤ q.distanceAlongPath) :=
  fun _ _ => inferInstance

noncomputable instance (points : List PathPoint) : Decidable (arcLengthMonotone points) := by
  unfold arcLengthMonotone
  infer_instance

/-- Physically meaningful limits (§7: non-positive limits are malformed). -/
def validConfig (cfg : RobotConfig ℝ) : Prop :=
  0 < cfg.maxModuleSpeed ∧ 0 < cfg.maxVelocity ∧ 0 < cfg.maxAcceleration

noncomputable instance (cfg : RobotConfig ℝ) : Decidable (validConfig cfg) :=
  inferInstanceAs
    (Decidable (0 < cfg.maxModuleSpeed ∧ 0 < cfg.maxVelocity ∧ 0 < cfg.maxAcceleration))

/-- Modelled from the spec: the body of
`PathPlannerTrajectory::getNextRotationTargetIdx` (declared at header lines
161-162) is not among the provided sources.  Per §4.1 it scans forward from
the given index for the next path point carrying an explicit holonomic
rotation target; if none exists, the end of the path is the implicit
target. -/
def getNextRotationTargetIdx (points : List PathPoint) (startingIndex : ℕ) : ℕ :=
  match (points.drop startingIndex).findIdx? (fun p => p.rotationTarget.isSome) with
  | some j => startingIndex + j
  | none => points.length - 1

/-- Modelled from the spec: per-point speed ceiling (§4.1): the minimum of
the global max velocity, the local constraint-zone velocity and, when
curvature is nonzero, the centripetal bound `sqrt(a_max / |curvature|)`. -/
noncomputable def pointSpeedCeiling (cfg : RobotConfig ℝ) (p : PathPoint) : ℝ :=
  let base := min cfg.maxVelocity p.maxVelocity
  if p.curvature = 0 then base
  else min base (Real.sqrt (p.maxAcceleration / |p.curvature|))

/-- Modelled from the spec: the walking core of `generateStates` (declared
at header lines 142-144; body not among the provided sources).  One state
is emitted per path point (§4.1) carrying the pose, the curvature, the
arc-length delta to the previous point, and the per-point speed ceiling as
the initial velocity bound; a holonomic heading is resolved by
cosine-eased shortest-path interpolation between the previous rotation
target (initially the starting rotation) and the next one, blended by the
fractional arc-length position between the two targets.  Fields finalized
by later passes (time, acceleration, chassis speeds, module states) start
at zero/empty. -/
noncomputable def buildStatesFrom (points : List PathPoint) (cfg : RobotConfig ℝ) :
    List PathPoint → ℕ → ℝ → ℝ → ℝ → List (PathPlannerTrajectoryState ℝ)
  | [], _, _, _, _ => []
  | p :: rest, i, prevRot, prevTargetDist, prevPointDist =>
    let nIdx := getNextRotationTargetIdx points i
    let nPoint := points.getD nIdx defaultPathPoint
    let nRot := nPoint.rotationTarget.getD nPoint.heading
    let denom := nPoint.distanceAlongPath - prevTargetDist
    let tBlend := if denom = 0 then 0 else (p.distanceAlongPath - prevTargetDist) / denom
    let hdg := if cfg.isHolonomic then
        (cosineInterpolate (prevRot : Real.Angle) (nRot : Real.Angle) tBlend).toReal
      else p.heading
    let st : PathPlannerTrajectoryState ℝ :=
      { time := 0, x := p.x, y := p.y, heading := hdg,
        linearVelocity := pointSpeedCeiling cfg p,
        linearAcceleration := 0,
        speeds := ⟨0, 0, 0⟩,
        curvature := p.curvature,
        deltaPos := p.distanceAlongPath - prevPointDist,
        moduleStates := [],
        maxVelocity := min cfg.maxVelocity p.maxVelocity,
        maxAcceleration := min cfg.maxAcceleration p.maxAcceleration }
    let prevRot' := if i = nIdx then nRot else prevRot
    let prevTargetDist' := if i = nIdx then nPoint.distanceAlongPath else prevTargetDist
    st :: buildStatesFrom points cfg rest (i + 1) prevRot' prevTargetDist' p.distanceAlongPath

/-- Modelled from the spec: `generateStates` (§4.1), starting the walk at
index 0 with the starting rotation as the previous target and the first
point's arc position as both reference distances (so the first state's
`deltaPos` is 0). -/
noncomputable def generateStates (points : List PathPoint) (startingRotation : ℝ)
    (cfg : RobotConfig ℝ) : List (PathPlannerTrajectoryState ℝ) :=
  let d0 := (points.headD defaultPathPoint).distanceAlongPath
  buildStatesFrom points cfg points 0 startingRotation d0 d0

/-- Modelled from the spec: the sweep of the forward acceleration pass
(§4.2): `v[i] = min(ceiling[i], sqrt(v[i-1]² + 2·a_max·Δs))`. -/
noncomputable def forwardPassSweep (cfg : RobotConfig ℝ) :
    ℝ → List (PathPlannerTrajectoryState ℝ) → List (PathPlannerTrajectoryState ℝ)
  | _, [] => []
  | vPrev, s :: rest =>
    let v := min s.linearVelocity
      (Real.sqrt (vPrev ^ 2 + 2 * cfg.maxAcceleration * s.deltaPos))
    { s with linearVelocity := v } :: forwardPassSweep cfg v rest

/-- Modelled from the spec: `forwardAccelPass` (declared at header lines
146-148; body not among the provided sources).  The starting state's
velocity is fixed from the caller-supplied starting chassis speed (§4.2,
embedded as its translation magnitude) and the sweep proceeds forward. -/
noncomputable def forwardAccelPass (states : List (PathPlannerTrajectoryState ℝ))
    (startingSpeeds : ChassisSpeeds ℝ) (cfg : RobotConfig ℝ) :
    List (PathPlannerTrajectoryState ℝ) :=
  match states with
  | [] => []
  | s :: rest =>
    let v0 := Real.sqrt (startingSpeeds.vx ^ 2 + startingSpeeds.vy ^ 2)
    { s with linearVelocity := v0 } :: forwardPassSweep cfg v0 rest

/-- Modelled from the spec: the backward sweep of the reverse pass (§4.3)
over the reversed sequence, carrying the next (in time) state's final
velocity and the arc delta separating the two. -/
noncomputable def reversePassSweep (cfg : RobotConfig ℝ) :
    ℝ → ℝ → List (PathPlannerTrajectoryState ℝ) → List (PathPlannerTrajectoryState ℝ)
  | _, _, [] => []
  | vNext, dNext, s :: rest =>
    let v := min s.linearVelocity
      (Real.sqrt (vNext ^ 2 + 2 * cfg.maxAcceleration * dNext))
    { s with linearVelocity := v } :: reversePassSweep cfg v s.deltaPos rest

/-- Modelled from the spec: `reverseAccelPass` (declared at header lines
150-152; body not among the provided sources).  The final state's velocity
is pinned to rest (§4.3) and `v[i] = min(v[i], sqrt(v[i+1]² + 2·a_max·Δs))`
is applied sweeping backward. -/
noncomputable def reverseAccelPass (states : List (PathPlannerTrajectoryState ℝ))
    (cfg : RobotConfig ℝ) : List (PathPlannerTrajectoryState ℝ) :=
  match states.reverse with
  | [] => []
  | sLast :: revRest =>
    let sLast' := { sLast with linearVelocity := 0 }
    (sLast' :: reversePassSweep cfg 0 sLast.deltaPos revRest).reverse

/-- Modelled from the spec: trapezoidal time integration (§4.3):
`Δt = Δs / ((v[i] + v[i+1]) / 2)` accumulated forward, with the division
guarded when `Δs = 0` or both velocities vanish (§4.3 edge case, §7). -/
noncomputable def timesSweep :
    ℝ → ℝ → List (PathPlannerTrajectoryState ℝ) → List (PathPlannerTrajectoryState ℝ)
  | _, _, [] => []
  | tPrev, vPrev, s :: rest =>
    let avg := (vPrev + s.linearVelocity) / 2
    let dt := if s.deltaPos = 0 ∨ avg = 0 then 0 else s.deltaPos / avg
    let t := tPrev + dt
    { s with time := t } :: timesSweep t s.linearVelocity rest

/-- Modelled from the spec: timestamp assignment with the first state fixed
at `time = 0` (§4.3). -/
noncomputable def assignTimes (states : List (PathPlannerTrajectoryState ℝ)) :
    List (PathPlannerTrajectoryState ℝ) :=
  match states with
  | [] => []
  | s :: rest => { s with time := 0 } :: timesSweep 0 s.linearVelocity rest

/-- Modelled from the spec: per-state acceleration derivation
`(v[i+1] - v[i]) / Δt` with the final state's acceleration defined as zero
(§4.3), division guarded at `Δt = 0`. -/
noncomputable def assignAccelerations :
    List (PathPlannerTrajectoryState ℝ) → List (PathPlannerTrajectoryState ℝ)
  | [] => []
  | [s] => [{ s with linearAcceleration := 0 }]
  | s :: s' :: rest =>
    let dt := s'.time - s.time
    let a := if dt = 0 then 0 else (s'.linearVelocity - s.linearVelocity) / dt
    { s with linearAcceleration := a } :: assignAccelerations (s' :: rest)

/-- Modelled from the spec: the generating constructor
`PathPlannerTrajectory(path, startingSpeeds, startingRotation, config)`
(declared at header lines 62-64; body not among the provided sources).
Malformed input — an empty path, non-monotonic arc length, or a config
with non-positive limits — is rejected up front with a distinct failure
outcome (§7) before any state is built; otherwise the pipeline
Builder → forward pass → reverse pass → times → accelerations produces the
finalized state sequence (§2, §4). -/
noncomputable def generateTrajectory (points : List PathPoint)
    (startingSpeeds : ChassisSpeeds ℝ) (startingRotation : ℝ)
    (cfg : RobotConfig ℝ) : Except GenError (PathPlannerTrajectory ℝ Unit) :=
  match points with
  | [] => .error .emptyPath
  | p :: rest =>
    if ¬ arcLengthMonotone (p :: rest) then .error .nonMonotonicArcLength
    else if ¬ validConfig cfg then .error .invalidConfig
    else .ok ⟨assignAccelerations (assignTimes (reverseAccelPass
      (forwardAccelPass (generateStates (p :: rest) startingRotation cfg)
        startingSpeeds cfg) cfg)), []⟩

end Generation

/-! ### Concrete material and helper lemmas -/

/-- A concrete `ℚ`-valued state with the given time and x-coordinate and
all other fields zero/empty; used for concrete trajectories below. -/
def qState (t x : ℚ) : PathPlannerTrajectoryState ℚ where
  time := t
  x := x
  y := 0
  heading := 0
  linearVelocity := 0
  linearAcceleration := 0
  speeds := ⟨0, 0, 0⟩
  curvature := 0
  deltaPos := 0
  moduleStates := []
  maxVelocity := 0
  maxAcceleration := 0

/-- The monotone-time invariant of §8: consecutive stored states have
non-decreasing timestamps. -/
def timesMonotone [LE α] (T : PathPlannerTrajectory α κ) : Prop :=
  T.states.Chain' fun a b => a.time ≤ b.time

section ChainLemmas

variable [LinearOrderedField α]

/-- In a strictly time-increasing sequence every element's time is at least
the head's time. -/
theorem head_time_le_get :
    ∀ (rest : List (PathPlannerTrajectoryState α)) (s : PathPlannerTrajectoryState α),
      (s :: rest).Chain' (fun a b => a.time < b.time) →
      ∀ i (h : i < (s :: rest).length), s.time ≤ ((s :: rest).get ⟨i, h⟩).time
  | [], _, _, 0, _ => le_refl _
  | s' :: rest', s, hchain, 0, _ => le_refl _
  | s' :: rest', s, hchain, i + 1, h => by
    rw [List.chain'_cons] at hchain
    exact le_trans hchain.1.le
      (head_time_le_get rest' s' hchain.2 i (Nat.lt_of_succ_lt_succ h))

/-- In a strictly time-increasing sequence every element's time is at most
the last element's time. -/
theorem get_time_le_last :
    ∀ (rest : List (PathPlannerTrajectoryState α)) (s : PathPlannerTrajectoryState α),
      (s :: rest).Chain' (fun a b => a.time < b.time) →
      ∀ i (h : i < (s :: rest).length),
        ((s :: rest).get ⟨i, h⟩).time ≤ (rest.getLastD s).time
  | [], _, _, 0, _ => le_refl _
  | s' :: rest', s, hchain, 0, _ => by
    rw [List.chain'_cons] at hchain
    rw [List.getLastD_cons]
    exact le_trans hchain.1.le (get_time_le_last rest' s' hchain.2 0 (Nat.succ_pos _))
  | s' :: rest', s, hchain, i + 1, h => by
    rw [List.chain'_cons] at hchain
    rw [List.getLastD_cons]
    exact get_time_le_last rest' s' hchain.2 i (Nat.lt_of_succ_lt_succ h)

/-- The bracketing walk of `sample` answers a query that hits a stored
timestamp of a strictly time-increasing sequence with that state
verbatim. -/
theorem sampleFrom_get :
    ∀ (rest : List (PathPlannerTrajectoryState α)) (s : PathPlannerTrajectoryState α),
      (s :: rest).Chain' (fun a b => a.time < b.time) →
      ∀ i (h : i < (s :: rest).length),
        sampleFrom s rest ((s :: rest).get ⟨i, h⟩).time = (s :: rest).get ⟨i, h⟩
  | [], s, _, 0, _ => rfl
  | s' :: rest', s, hchain, 0, _ => by
    simp [sampleFrom]
  | s' :: rest', s, hchain, i + 1, h => by
    rw [List.chain'_cons] at hchain
    have hts : s'.time ≤ ((s' :: rest').get ⟨i, Nat.lt_of_succ_lt_succ h⟩).time :=
      head_time_le_get rest' s' hchain.2 i (Nat.lt_of_succ_lt_succ h)
    have h1 : ¬ ((s' :: rest').get ⟨i, Nat.lt_of_succ_lt_succ h⟩).time ≤ s.time :=
      not_le.mpr (lt_of_lt_of_le hchain.1 hts)
    have h2 : ¬ ((s' :: rest').get ⟨i, Nat.lt_of_succ_lt_succ h⟩).time < s'.time :=
      not_lt.mpr hts
    have hget : (s :: s' :: rest').get ⟨i + 1, h⟩ =
        (s' :: rest').get ⟨i, Nat.lt_of_succ_lt_succ h⟩ := rfl
    rw [hget, sampleFrom, if_neg h1, if_neg h2]
    exact sampleFrom_get rest' s' hchain.2 i (Nat.lt_of_succ_lt_succ h)

end ChainLemmas

/-! ### Claim theorems -/

/-- C8: a trajectory constructed from states and event commands returns the
event commands unchanged from `getEventCommands`; a trajectory constructed
from states alone returns an empty event-command sequence; the state
sequence itself is also stored unmodified.  The handle type `κ` is opaque
to the embedding, so the core cannot invoke, validate or reorder the
handles. -/
theorem c8_event_commands_stored_verbatim {α κ : Type}
    (s : List (PathPlannerTrajectoryState α)) (e : List (α × κ)) :
    getEventCommands (mkTrajectory s e) = e ∧
    getEventCommands (mkTrajectoryStates s : PathPlannerTrajectory α κ) = [] ∧
    getStates (mkTrajectory s e) = s :=
  ⟨rfl, rfl, rfl⟩

/-- C9: `getInitialState`, `getEndState`, `getTotalTime` and
`getInitialPose` hit their out-of-bounds branch exactly when the stored
state sequence is empty, and the default constructor produces exactly such
an empty sequence. -/
theorem c9_accessors_error_iff_empty {α κ : Type} (T : PathPlannerTrajectory α κ) :
    (getInitialState T = none ↔ T.states = []) ∧
    (getEndState T = none ↔ T.states = []) ∧
    (getTotalTime T = none ↔ T.states = []) ∧
    (getInitialPose T = none ↔ T.states = []) ∧
    getStates (mkTrajectoryDefault : PathPlannerTrajectory α κ) = [] := by
  obtain ⟨states, events⟩ := T
  cases states <;>
    simp [getInitialState, getEndState, getTotalTime, getInitialPose, getStates,
      mkTrajectoryDefault]

/-- C2 counterexample: the public constructor taking a pre-built state
sequence stores it verbatim, so a trajectory built from states with times
`[1, 0]` is a finalized trajectory violating `states[0].time ≤
states[1].time`. -/
theorem c2_counterexample :
    ¬ timesMonotone (mkTrajectory [qState 1 0, qState 0 0] ([] : List (ℚ × Unit))) := by
  simp [timesMonotone, mkTrajectory, List.chain'_cons, qState]

/-- C2 (amended): the constructor taking a pre-built state sequence stores
it unmodified, so the monotone-time invariant holds for the constructed
trajectory exactly when the supplied sequence already satisfies it; it is
not enforced by the constructor. -/
theorem c2_mkTrajectory_monotone_iff {α κ : Type} [LE α]
    (s : List (PathPlannerTrajectoryState α)) (e : List (α × κ))
    (h : s.Chain' fun a b => a.time ≤ b.time) :
    timesMonotone (mkTrajectory s e) ∧ getStates (mkTrajectory s e) = s :=
  ⟨h, rfl⟩

/-- C2 witness: the amended statement at a concrete monotone sequence. -/
theorem c2_witness :
    timesMonotone (mkTrajectory [qState 0 0, qState 1 0] ([] : List (ℚ × Unit))) ∧
    getStates (mkTrajectory [qState 0 0, qState 1 0] ([] : List (ℚ × Unit))) =
      [qState 0 0, qState 1 0] :=
  c2_mkTrajectory_monotone_iff [qState 0 0, qState 1 0] []
    (by simp [List.chain'_cons, qState])

/-- C1 counterexample: a pre-built trajectory whose final state carries a
negative timestamp makes `t < 0` and `t > getTotalTime()` hold at once, so
no result can satisfy both clamp clauses; at `t = -1` the sample is the
initial state, not the end state the claim demands. -/
theorem c1_counterexample :
    getTotalTime (mkTrajectory [qState 5 0, qState (-3) 1] ([] : List (ℚ × Unit))) =
      some (-3) ∧
    ((-3 : ℚ) < -1) ∧
    sample (mkTrajectory [qState 5 0, qState (-3) 1] ([] : List (ℚ × Unit))) (-1) ≠
      getEndState (mkTrajectory [qState 5 0, qState (-3) 1] ([] : List (ℚ × Unit))) := by
  refine ⟨rfl, by norm_num, ?_⟩
  decide

/-- C1 (amended): for every trajectory with a non-empty state sequence
whose total time is non-negative (true of every generated trajectory,
whose times start at 0 and never decrease), `sample` never fails, `t < 0`
yields `getInitialState()` and `t > getTotalTime()` yields
`getEndState()`.  For a pre-built sequence with a negative final
timestamp, the two clamp clauses can contradict each other and the
implementation prefers the initial state. -/
theorem c1_sample_clamps {α κ : Type} [LinearOrderedField α]
    (T : PathPlannerTrajectory α κ) (t tot : α)
    (hne : T.states ≠ []) (htot : getTotalTime T = some tot) (hnn : 0 ≤ tot) :
    (sample T t).isSome ∧
    (t < 0 → sample T t = getInitialState T) ∧
    (tot < t → sample T t = getEndState T) := by
  obtain ⟨states, events⟩ := T
  match states, hne with
  | s :: rest, _ =>
    have htot' : (rest.getLastD s).time = tot := by
      simpa [getTotalTime, getEndState] using htot
    have hs : sample ⟨s :: rest, events⟩ t =
        if t < 0 then some s
        else if (rest.getLastD s).time < t then some (rest.getLastD s)
        else some (sampleFrom s rest t) := rfl
    refine ⟨?_, ?_, ?_⟩
    · rw [hs]; split_ifs <;> simp
    · intro h1
      rw [hs, if_pos h1]; rfl
    · intro h3
      have h1 : ¬ t < 0 := not_lt.mpr (le_trans hnn h3.le)
      have h2 : (rest.getLastD s).time < t := htot' ▸ h3
      rw [hs, if_neg h1, if_pos h2]; rfl

/-- C1 witness: the amended statement at a concrete two-state trajectory
and the out-of-range query time `t = -1`. -/
theorem c1_witness :
    sample (mkTrajectory [qState 0 0, qState 1 1] ([] : List (ℚ × Unit))) (-1) =
      getInitialState (mkTrajectory [qState 0 0, qState 1 1] ([] : List (ℚ × Unit))) :=
  (c1_sample_clamps (mkTrajectory [qState 0 0, qState 1 1] []) (-1) 1
    (by decide) (by decide) (by decide)).2.1 (by decide)

/-- C4 counterexample: with two distinct states sharing timestamp 0 — a
sequence the spec itself admits at zero-length segments — sampling at
`states[1].time` returns `states[0]` verbatim, not `states[1]`. -/
theorem c4_counterexample :
    getState (mkTrajectory [qState 0 0, qState 0 1] ([] : List (ℚ × Unit))) 1 =
      some (qState 0 1) ∧
    sample (mkTrajectory [qState 0 0, qState 0 1] ([] : List (ℚ × Unit)))
        (qState 0 1).time ≠ some (qState 0 1) := by
  decide

/-- C4 (amended): for every trajectory whose stored timestamps are
strictly increasing and non-negative, `sample(states[i].time)` returns
`states[i]` verbatim for every valid index `i`; when consecutive states
share a timestamp, only the first state of the group can be returned. -/
theorem c4_sample_exact_at_stored_times {α κ : Type} [LinearOrderedField α]
    (T : PathPlannerTrajectory α κ)
    (hchain : T.states.Chain' fun a b => a.time < b.time)
    (hnn : ∀ s ∈ T.states, 0 ≤ s.time)
    (i : ℕ) (h : i < T.states.length) :
    sample T ((T.states.get ⟨i, h⟩).time) = some (T.states.get ⟨i, h⟩) := by
  obtain ⟨states, events⟩ := T
  match states, h with
  | s :: rest, h =>
    have hmem : (s :: rest).get ⟨i, h⟩ ∈ s :: rest := List.get_mem _ _ _
    have h1 : ¬ ((s :: rest).get ⟨i, h⟩).time < 0 :=
      not_lt.mpr (hnn _ hmem)
    have h2 : ¬ (rest.getLastD s).time < ((s :: rest).get ⟨i, h⟩).time :=
      not_lt.mpr (get_time_le_last rest s hchain i h)
    have hs : sample ⟨s :: rest, events⟩ ((s :: rest).get ⟨i, h⟩).time =
        if ((s :: rest).get ⟨i, h⟩).time < 0 then some s
        else if (rest.getLastD s).time < ((s :: rest).get ⟨i, h⟩).time then
          some (rest.getLastD s)
        else some (sampleFrom s rest ((s :: rest).get ⟨i, h⟩).time) := rfl
    rw [hs, if_neg h1, if_neg h2]
    exact congrArg some (sampleFrom_get rest s hchain i h)

/-- C4 witness: the amended statement at a concrete three-state trajectory
with strictly increasing non-negative times, index 1. -/
theorem c4_witness :
    sample (mkTrajectory [qState 0 0, qState 1 1, qState 3 2] ([] : List (ℚ × Unit)))
        (((mkTrajectory [qState 0 0, qState 1 1, qState 3 2]
          ([] : List (ℚ × Unit))).states.get ⟨1, by decide⟩).time) =
      some ((mkTrajectory [qState 0 0, qState 1 1, qState 3 2]
        ([] : List (ℚ × Unit))).states.get ⟨1, by decide⟩) :=
  c4_sample_exact_at_stored_times (mkTrajectory [qState 0 0, qState 1 1, qState 3 2] [])
    (by simp [mkTrajectory, List.chain'_cons, qState])
    (by simp [mkTrajectory, qState]) 1 (by decide)

/-- C10: `toChassisSpeeds` requires at least 4 module states when the
config is holonomic and at least 2 otherwise — the out-of-bounds branch is
taken exactly on shorter vectors — and any entries beyond the required
prefix are ignored. -/
theorem c10_toChassisSpeeds_index_bounds {α : Type} (cfg : RobotConfig α)
    (ms extra : List (SwerveModuleTrajectoryState α)) :
    (cfg.isHolonomic = true →
      ((toChassisSpeeds cfg ms = none ↔ ms.length < 4) ∧
        (4 ≤ ms.length → toChassisSpeeds cfg (ms ++ extra) = toChassisSpeeds cfg ms))) ∧
    (cfg.isHolonomic = false →
      ((toChassisSpeeds cfg ms = none ↔ ms.length < 2) ∧
        (2 ≤ ms.length → toChassisSpeeds cfg (ms ++ extra) = toChassisSpeeds cfg ms))) := by
  rcases ms with _ | ⟨a, _ | ⟨b, _ | ⟨c, _ | ⟨d, rest⟩⟩⟩⟩ <;>
    constructor <;> intro hH <;>
    constructor <;>
    simp [toChassisSpeeds, hH, List.getElem?_append]

/-- A concrete holonomic `ℚ`-valued configuration used by the C10
witness. -/
def c10cfg : RobotConfig ℚ where
  isHolonomic := true
  maxModuleSpeed := 1
  maxVelocity := 1
  maxAcceleration := 1
  swerveToChassis := fun m _ _ _ => ⟨m.speed, 0, 0⟩
  diffToChassis := fun m _ => ⟨m.speed, 0, 0⟩

/-- C10 witness: a holonomic config with a 4-entry module vector; the
extra appended entry does not change the result. -/
theorem c10_witness :
    toChassisSpeeds c10cfg ([⟨1, 0⟩, ⟨2, 0⟩, ⟨3, 0⟩, ⟨4, 0⟩] ++ [⟨5, 0⟩]) =
      toChassisSpeeds c10cfg [⟨1, 0⟩, ⟨2, 0⟩, ⟨3, 0⟩, ⟨4, 0⟩] :=
  ((c10_toChassisSpeeds_index_bounds c10cfg [⟨1, 0⟩, ⟨2, 0⟩, ⟨3, 0⟩, ⟨4, 0⟩]
    [⟨5, 0⟩]).1 rfl).2 (by decide)

/-- C5: `cosineInterpolate(start, end, t)` is exactly the shortest-path
rotation interpolation with the cosine-eased blend factor
`t2 = (1 - cos(t·π)) / 2`, and it returns `start` at `t = 0` and `end` at
`t = 1`. -/
theorem c5_cosineInterpolate_correct (a b : Real.Angle) (t : ℝ)
    (h0 : 0 ≤ t) (h1 : t ≤ 1) :
    cosineInterpolate a b t = rotationLerp a b ((1 - Real.cos (t * Real.pi)) / 2) ∧
    cosineInterpolate a b 0 = a ∧
    cosineInterpolate a b 1 = b := by
  refine ⟨rfl, ?_, ?_⟩
  · simp [cosineInterpolate, rotationLerp]
  · simp only [cosineInterpolate, rotationLerp, one_mul, Real.cos_pi]
    norm_num [Real.Angle.coe_toReal]

/-- C5 witness: the statement at `start = 0`, `end = π`, `t = 1/2`. -/
theorem c5_witness :
    cosineInterpolate (0 : Real.Angle) ((Real.pi : ℝ) : Real.Angle) (1 / 2) =
      rotationLerp (0 : Real.Angle) ((Real.pi : ℝ) : Real.Angle)
        ((1 - Real.cos ((1 / 2) * Real.pi)) / 2) ∧
    cosineInterpolate (0 : Real.Angle) ((Real.pi : ℝ) : Real.Angle) 0 = 0 ∧
    cosineInterpolate (0 : Real.Angle) ((Real.pi : ℝ) : Real.Angle) 1 =
      ((Real.pi : ℝ) : Real.Angle) :=
  c5_cosineInterpolate_correct 0 ((Real.pi : ℝ) : Real.Angle) (1 / 2)
    (by norm_num) (by norm_num)

section DesaturationLemmas

/-- Module speeds are non-negative. -/
theorem moduleSpeed_nonneg (m : ℝ × ℝ) (cs : ChassisSpeeds ℝ) :
    0 ≤ moduleSpeed m cs :=
  Real.sqrt_nonneg _

/-- The worst-case module speed is non-negative. -/
theorem maxRequiredModuleSpeed_nonneg (modules : List (ℝ × ℝ)) (cs : ChassisSpeeds ℝ) :
    0 ≤ maxRequiredModuleSpeed modules cs := by
  induction modules with
  | nil => exact le_refl 0
  | cons m rest ih =>
    exact le_trans ih (le_max_right _ _)

/-- Module speeds scale linearly under a non-negative uniform scaling of
the chassis command. -/
theorem moduleSpeed_scale (m : ℝ × ℝ) (k : ℝ) (cs : ChassisSpeeds ℝ) (hk : 0 ≤ k) :
    moduleSpeed m (scaleChassisSpeeds k cs) = k * moduleSpeed m cs := by
  unfold moduleSpeed scaleChassisSpeeds
  have hsq : (k * cs.vx - k * cs.omega * m.2) ^ 2 + (k * cs.vy + k * cs.omega * m.1) ^ 2 =
      k ^ 2 * ((cs.vx - cs.omega * m.2) ^ 2 + (cs.vy + cs.omega * m.1) ^ 2) := by
    ring
  rw [hsq, Real.sqrt_mul (sq_nonneg k), Real.sqrt_sq hk]

/-- The worst-case module speed scales linearly under a non-negative
uniform scaling. -/
theorem maxRequiredModuleSpeed_scale (modules : List (ℝ × ℝ)) (k : ℝ)
    (cs : ChassisSpeeds ℝ) (hk : 0 ≤ k) :
    maxRequiredModuleSpeed modules (scaleChassisSpeeds k cs) =
      k * maxRequiredModuleSpeed modules cs := by
  induction modules with
  | nil => simp [maxRequiredModuleSpeed]
  | cons m rest ih =>
    simp only [maxRequiredModuleSpeed, List.map_cons, List.foldr_cons] at ih ⊢
    rw [moduleSpeed_scale m k cs hk, ih, mul_max_of_nonneg _ _ hk]

end DesaturationLemmas

/-- C3: wheel-speed desaturation is idempotent — for a non-negative module
speed limit, applying `desaturateWheelSpeeds` twice to a chassis command
equals applying it once, because a saturated command is scaled so its worst
module sits exactly at the limit. -/
theorem c3_desaturateWheelSpeeds_idempotent (modules : List (ℝ × ℝ))
    (maxSpd : ℝ) (cs : ChassisSpeeds ℝ) (hnn : 0 ≤ maxSpd) :
    desaturateWheelSpeeds modules maxSpd (desaturateWheelSpeeds modules maxSpd cs) =
      desaturateWheelSpeeds modules maxSpd cs := by
  unfold desaturateWheelSpeeds
  by_cases h : maxSpd < maxRequiredModuleSpeed modules cs
  · rw [if_pos h]
    have hMpos : 0 < maxRequiredModuleSpeed modules cs := lt_of_le_of_lt hnn h
    have hk : 0 ≤ maxSpd / maxRequiredModuleSpeed modules cs :=
      div_nonneg hnn hMpos.le
    rw [maxRequiredModuleSpeed_scale modules _ cs hk,
      div_mul_cancel₀ maxSpd (ne_of_gt hMpos)]
    rw [if_neg (lt_irrefl maxSpd)]
  · rw [if_neg h, if_neg h]

/-- C3 witness: one module at offset `(1, 0)`, limit 2, command
`(vx, vy, ω) = (3, 0, 0)`. -/
theorem c3_witness :
    desaturateWheelSpeeds [(1, 0)] 2 (desaturateWheelSpeeds [(1, 0)] 2 ⟨3, 0, 0⟩) =
      desaturateWheelSpeeds [(1, 0)] 2 ⟨3, 0, 0⟩ :=
  c3_desaturateWheelSpeeds_idempotent [(1, 0)] 2 ⟨3, 0, 0⟩ (by norm_num)

/-- C6: trajectory generation from a path rejects malformed input — an
empty path point sequence, non-monotonic arc length, or a config with
non-positive limits — synchronously at construction time with a distinct
failure outcome per category, producing no state sequence at all; a
successful build certifies that none of the malformed conditions held, so
defaults are never silently substituted. -/
theorem c6_generate_fails_fast (points : List PathPoint) (ss : ChassisSpeeds ℝ)
    (rot : ℝ) (cfg : RobotConfig ℝ) :
    (points = [] → generateTrajectory points ss rot cfg = .error .emptyPath) ∧
    (points ≠ [] → ¬ arcLengthMonotone points →
      generateTrajectory points ss rot cfg = .error .nonMonotonicArcLength) ∧
    (points ≠ [] → arcLengthMonotone points → ¬ validConfig cfg →
      generateTrajectory points ss rot cfg = .error .invalidConfig) ∧
    (∀ T, generateTrajectory points ss rot cfg = .ok T →
      points ≠ [] ∧ arcLengthMonotone points ∧ validConfig cfg) ∧
    (GenError.emptyPath ≠ GenError.nonMonotonicArcLength ∧
      GenError.emptyPath ≠ GenError.invalidConfig ∧
      GenError.nonMonotonicArcLength ≠ GenError.invalidConfig) := by
  rcases points with _ | ⟨p, rest⟩
  · refine ⟨fun _ => rfl, fun h => absurd rfl h, fun h => absurd rfl h, ?_, by decide⟩
    intro T hT
    simp [generateTrajectory] at hT
  · refine ⟨?_, ?_, ?_, ?_, by decide⟩
    · intro h
      cases h
    · intro _ hmono
      simp [generateTrajectory, hmono]
    · intro _ hmono hcfg
      simp [generateTrajectory, hmono, hcfg]
    · intro T hT
      refine ⟨List.cons_ne_nil _ _, ?_, ?_⟩
      · by_contra hmono
        simp [generateTrajectory, hmono] at hT
      · by_contra hcfg
        by_cases hmono : arcLengthMonotone (p :: rest)
        · simp [generateTrajectory, hmono, hcfg] at hT
        · simp [generateTrajectory, hmono] at hT

/-- A concrete differential-drive `ℝ`-valued configuration used by the C6
and C7 witnesses. -/
noncomputable def cRealCfg : RobotConfig ℝ where
  isHolonomic := false
  maxModuleSpeed := 1
  maxVelocity := 1
  maxAcceleration := 1
  swerveToChassis := fun _ _ _ _ => ⟨0, 0, 0⟩
  diffToChassis := fun _ _ => ⟨0, 0, 0⟩

/-- C6 witness: the empty path is rejected with the `emptyPath` outcome. -/
theorem c6_witness :
    generateTrajectory [] ⟨0, 0, 0⟩ 0 cRealCfg = .error .emptyPath :=
  (c6_generate_fails_fast [] ⟨0, 0, 0⟩ 0 cRealCfg).1 rfl

section SingletonPipeline

/-- The forward pass on a singleton fixes the starting velocity. -/
theorem forwardAccelPass_singleton (s : PathPlannerTrajectoryState ℝ)
    (ss : ChassisSpeeds ℝ) (cfg : RobotConfig ℝ) :
    forwardAccelPass [s] ss cfg =
      [{ s with linearVelocity := Real.sqrt (ss.vx ^ 2 + ss.vy ^ 2) }] :=
  rfl

/-- The reverse pass on a singleton pins the final velocity to rest. -/
theorem reverseAccelPass_singleton (s : PathPlannerTrajectoryState ℝ)
    (cfg : RobotConfig ℝ) :
    reverseAccelPass [s] cfg = [{ s with linearVelocity := 0 }] :=
  rfl

/-- Time assignment on a singleton fixes the first state at time 0. -/
theorem assignTimes_singleton (s : PathPlannerTrajectoryState ℝ) :
    assignTimes [s] = [{ s with time := 0 }] :=
  rfl

/-- Acceleration assignment on a singleton zeroes the acceleration. -/
theorem assignAccelerations_singleton (s : PathPlannerTrajectoryState ℝ) :
    assignAccelerations [s] = [{ s with linearAcceleration := 0 }] :=
  rfl

/-- The full finalization pipeline of a single-point path produces exactly
one state, and that state carries time 0. -/
theorem pipeline_singleton (p : PathPoint) (ss : ChassisSpeeds ℝ) (rot : ℝ)
    (cfg : RobotConfig ℝ) :
    ∃ s : PathPlannerTrajectoryState ℝ, s.time = 0 ∧
      assignAccelerations (assignTimes (reverseAccelPass
        (forwardAccelPass (generateStates [p] rot cfg) ss cfg) cfg)) = [s] := by
  obtain ⟨s0, hs0⟩ : ∃ s0, generateStates [p] rot cfg = [s0] := ⟨_, rfl⟩
  rw [hs0, forwardAccelPass_singleton, reverseAccelPass_singleton,
    assignTimes_singleton, assignAccelerations_singleton]
  exact ⟨_, rfl, rfl⟩

end SingletonPipeline

/-- C7: a generated single-point trajectory has exactly one state, total
time 0, and `sample` of any time returns that single state; moreover for
every trajectory (with a non-empty state sequence or not) `getTotalTime`
is by definition the `time` field of `getEndState`'s result. -/
theorem c7_single_point_trajectory {β κ' : Type} (p : PathPoint)
    (ss : ChassisSpeeds ℝ) (rot : ℝ) (cfg : RobotConfig ℝ)
    (T : PathPlannerTrajectory ℝ Unit)
    (hgen : generateTrajectory [p] ss rot cfg = .ok T) :
    T.states.length = 1 ∧ getTotalTime T = some 0 ∧
    (∀ t : ℝ, sample T t = getInitialState T) ∧
    (∀ T' : PathPlannerTrajectory β κ',
      getTotalTime T' = (getEndState T').map fun s => s.time) := by
  have hmono : arcLengthMonotone [p] := List.chain'_singleton _
  rw [generateTrajectory.eq_def] at hgen
  simp only [] at hgen
  rw [if_neg (not_not_intro hmono)] at hgen
  by_cases hcfg : validConfig cfg
  · rw [if_neg (not_not_intro hcfg)] at hgen
    obtain ⟨s, hstime, hpipe⟩ := pipeline_singleton p ss rot cfg
    rw [hpipe] at hgen
    injection hgen with hgen
    subst hgen
    refine ⟨rfl, ?_, ?_, fun T' => rfl⟩
    · simp [getTotalTime, getEndState, hstime]
    · intro t
      have hs : sample (⟨[s], []⟩ : PathPlannerTrajectory ℝ Unit) t =
          if t < 0 then some s
          else if s.time < t then some s
          else some (sampleFrom s [] t) := rfl
      rw [hs]
      split_ifs <;> rfl
  · rw [if_pos hcfg] at hgen
    cases hgen

/-- The single-point trajectory of the C7 witness: the finalization
pipeline applied to the one-point path at the origin. -/
noncomputable def c7traj : PathPlannerTrajectory ℝ Unit :=
  ⟨assignAccelerations (assignTimes (reverseAccelPass
    (forwardAccelPass (generateStates [⟨0, 0, 0, 0, 0, none, 1, 1⟩] 0 cRealCfg)
      ⟨0, 0, 0⟩ cRealCfg) cRealCfg)), []⟩

/-- C7 witness: the statement at a concrete one-point path. -/
theorem c7_witness :
    generateTrajectory [⟨0, 0, 0, 0, 0, none, 1, 1⟩] ⟨0, 0, 0⟩ 0 cRealCfg = .ok c7traj ∧
    c7traj.states.length = 1 ∧ getTotalTime c7traj = some 0 ∧
    sample c7traj 5 = getInitialState c7traj := by
  have hvalid : validConfig cRealCfg := by
    refine ⟨?_, ?_, ?_⟩ <;> norm_num [cRealCfg]
  have hmono : arcLengthMonotone [(⟨0, 0, 0, 0, 0, none, 1, 1⟩ : PathPoint)] :=
    List.chain'_singleton _
  have hgen : generateTrajectory [⟨0, 0, 0, 0, 0, none, 1, 1⟩] ⟨0, 0, 0⟩ 0 cRealCfg =
      .ok c7traj := by
    rw [generateTrajectory.eq_def]
    simp only []
    rw [if_neg (not_not_intro hmono), if_neg (not_not_intro hvalid)]
    rfl
  obtain ⟨h1, h2, h3, _⟩ :=
    @c7_single_point_trajectory ℝ Unit ⟨0, 0, 0, 0, 0, none, 1, 1⟩
      ⟨0, 0, 0⟩ 0 cRealCfg c7traj hgen
  exact ⟨hgen, h1, h2, h3 5⟩

end PPLib
